import Mathlib

/-!
Verification of the `llamaquery_api` service (file `llamaquery_api.py`).

This file gives a shallow embedding of the request handler: the company-name
variant generation (`normalize_variants`), the company resolution from the
request payload, the bounded retry loop around the retrieval call, the
normalization of retrieved nodes into result records, and the substring-based
company filtering.  The remote retrieval call is modelled as an oracle
`f : Nat → RetrieveOutcome` giving the outcome of each attempt; the handler is
a pure function from the request data and that oracle to a trace recording the
response (or the propagated exception), the backoff sleeps performed, and the
number of retrieval calls made.
-/

/-- Lowercasing of a string, character by character, modelling Python
`str.lower()` (on the ASCII names involved here). -/
def strLower (s : String) : String :=
  ⟨s.data.map Char.toLower⟩

/-- Removal of leading and trailing whitespace, modelling `str.strip()`. -/
def strTrim (s : String) : String :=
  ⟨((s.data.dropWhile Char.isWhitespace).reverse.dropWhile Char.isWhitespace).reverse⟩

/-- Replacement of every occurrence of the character `c` by `rep`,
modelling `str.replace(c, rep)` for a one-character pattern (the only
pattern the source uses). -/
def strReplaceChar (s : String) (c : Char) (rep : String) : String :=
  ⟨s.data.flatMap (fun ch => if ch = c then rep.data else [ch])⟩

/-- Boolean contiguous-sublist check on character lists. -/
def listInfixOf (p : List Char) : List Char → Bool
  | [] => p.isEmpty
  | l@(_ :: t) => p.isPrefixOf l || listInfixOf p t

/-- Python substring containment: `needle in hay` for strings, i.e. the
character list of `needle` is a contiguous infix of that of `hay`. -/
def strContains (hay needle : String) : Bool :=
  listInfixOf needle.data hay.data

/-- Python string truthiness-based `or` on an optional string, as in
`x or y` where `x : str | None`: the result is `y` when `x` is `None` or
the empty string, and `x` itself otherwise. -/
def pyOrS (a : Option String) (b : Option String) : Option String :=
  match a with
  | some s => if s = "" then b else some s
  | none => b

/-- Embedding of `normalize_variants` from `llamaquery_api.py`:
lowercase-trimmed form plus the three space encodings, duplicates collapsed
(Python builds a set and lists it; we collapse with `dedup`). -/
def normalize_variants (value : String) : List String :=
  if value = "" then []
  else
    let v := strLower (strTrim value)
    [v, strReplaceChar v ' ' "%20", strReplaceChar v ' ' "_",
      strReplaceChar v ' ' ""].dedup

/-- Exceptions relevant to the handler, mirroring the Python exception
classes that can arise from the retrieval call or from payload access. -/
inductive PyExc where
  | remoteProtocolError (msg : String)
  | readTimeout (msg : String)
  | indexError
  | other (name : String) (msg : String)
deriving DecidableEq, Repr

/-- The `str(e)` rendering of an exception used in the error response. -/
def PyExc.msg : PyExc → String
  | .remoteProtocolError m => m
  | .readTimeout m => m
  | .indexError => "list index out of range"
  | .other _ m => m

/-- The retry loop catches exactly `httpx.RemoteProtocolError` and
`httpx.ReadTimeout`. -/
def isTransient : PyExc → Bool
  | .remoteProtocolError _ => true
  | .readTimeout _ => true
  | _ => false

/-- One entry of the `filters` list in the request payload: a JSON object
whose `value` key may be absent. -/
structure FilterItem where
  value : Option String
deriving DecidableEq, Repr

/-- The object found at `filters` or `preFilters` in the request payload:
it may or may not carry a `filters` key (holding a list), and may carry
other keys (which only affect Python dict truthiness). -/
structure FiltersPayload where
  filters : Option (List FilterItem)
  extraKeys : Bool := false
deriving DecidableEq, Repr

/-- Python truthiness of the payload dict: non-empty iff it has the
`filters` key or some other key. -/
def FiltersPayload.truthy (fp : FiltersPayload) : Bool :=
  fp.filters.isSome || fp.extraKeys

/-- The JSON request body, restricted to the keys the handler reads. -/
structure RequestData where
  query : Option String
  filters : Option FiltersPayload
  preFilters : Option FiltersPayload
  company : Option String
deriving DecidableEq, Repr

/-- Company-name resolution from the request body, embedding lines 33-41 of
`llamaquery_api.py`.  `filters_payload = data.get("filters") or
data.get("preFilters")`; if that is truthy and has a `filters` key, the
first list element's `value` is read (an empty list raises `IndexError`);
a falsy value falls back to `data.get("company") or ""`; a final empty
string means the "Missing 'company'" rejection, modelled as `ok none`. -/
def selectedPayload (d : RequestData) : Option FiltersPayload :=
  match d.filters with
  | some fp => if fp.truthy then some fp else d.preFilters
  | none => d.preFilters

/-- The `if filters_payload and "filters" in filters_payload` step reading
`filters_payload["filters"][0].get("value")` (an empty list raises
`IndexError`). -/
def payloadStep (o : Option FiltersPayload) : Except PyExc (Option String) :=
  match o with
  | some fp =>
    if fp.truthy then
      match fp.filters with
      | some [] => .error .indexError
      | some (f0 :: _) => .ok f0.value
      | none => .ok none
    else .ok none
  | none => .ok none

def resolveCompanyE (d : RequestData) : Except PyExc (Option String) :=
  match payloadStep (selectedPayload d) with
  | .error e => .error e
  | .ok cv0 =>
    let cv1 : String :=
      match cv0 with
      | some s => if s = "" then d.company.getD "" else s
      | none => d.company.getD ""
    if cv1 = "" then .ok none else .ok (some cv1)

/-- The inner node object (`getattr(node, "node", node)` target): it carries
a metadata mapping, modelled as an association list of string keys/values. -/
structure NodeObj where
  metadata : List (String × String)
deriving DecidableEq, Repr

/-- A retrieved node as the handler sees it: an optional inner `node`
attribute (absent means the node itself is used), the node's own metadata
(used when the `node` attribute is absent), and an optional `text`
attribute (`getattr(node, "text", "")`). -/
structure RetNode where
  node : Option NodeObj
  selfMetadata : List (String × String)
  text : Option String
deriving DecidableEq, Repr

/-- `metadata.get(k)` on the association-list model of a Python dict. -/
def mget (m : List (String × String)) (k : String) : Option String :=
  (m.find? (fun p => p.1 = k)).map (fun p => p.2)

/-- The metadata mapping actually read: `getattr(node, "node", node)`
followed by `getattr(node_obj, "metadata", {}) or {}`. -/
def RetNode.effMetadata (n : RetNode) : List (String × String) :=
  match n.node with
  | some obj => obj.metadata
  | none => n.selfMetadata

/-- The `file_name` of the output record, embedding the Python `or` chain
`metadata.get("file_name") or metadata.get("filename") or
metadata.get("document_title")` (which falls through on `None` and on the
empty string alike). -/
def recordFileName (m : List (String × String)) : Option String :=
  pyOrS (mget m "file_name") (pyOrS (mget m "filename") (mget m "document_title"))

/-- The output record shape `{text, file_name, web_url}`. -/
structure ResultRecord where
  text : String
  file_name : Option String
  web_url : Option String
deriving DecidableEq, Repr

/-- Normalization of one retrieved node into a result record (lines 72-88). -/
def mkRecord (n : RetNode) : ResultRecord :=
  let m := n.effMetadata
  { text := n.text.getD ""
  , file_name := recordFileName m
  , web_url := mget m "web_url" }

/-- Embedding of the inner `match_company` predicate: some variant is a
substring of the lowercased text, file name, or web url, with `None`
fields replaced by the empty string. -/
def match_company (variants : List String) (text : String)
    (file_name web_url : Option String) : Bool :=
  let text_lower := strLower (if text = "" then "" else text)
  let file_lower := strLower (file_name.getD "")
  let url_lower := strLower (web_url.getD "")
  variants.any (fun v =>
    strContains text_lower v || strContains file_lower v || strContains url_lower v)

/-- Outcome of one invocation of `index.as_retriever().retrieve(query)`. -/
inductive RetrieveOutcome where
  | ok (nodes : List RetNode)
  | exc (e : PyExc)
deriving Repr

/-- Result of the retry loop: retrieved nodes, the body-level connection
failure after exhausting retries, or a propagated exception. -/
inductive RetrievalResult where
  | nodes (ns : List RetNode)
  | connFailed (msg : String)
  | raised (e : PyExc)
deriving DecidableEq, Repr

/-- Body of the retry loop of lines 59-69, from a given attempt index:
`left` is the number of retries still allowed, i.e. `2 - attempt`, so
`left > 0` is exactly the loop's `attempt < 2` guard.  On a transient
fault with retries left it sleeps 2 seconds and retries, on the last
attempt it yields the connection-failure response, and any other
exception propagates.  Besides the result it returns the list of sleep
durations and the number of retrieval calls made. -/
def retryGo (f : Nat → RetrieveOutcome) : Nat → Nat → RetrievalResult × List Nat × Nat
  | attempt, left =>
    match f attempt with
    | .ok ns => (.nodes ns, [], 1)
    | .exc e =>
      if isTransient e then
        match left with
        | l + 1 =>
          let r := retryGo f (attempt + 1) l
          (r.1, 2 :: r.2.1, r.2.2 + 1)
        | 0 => (.connFailed ("Llama Cloud connection failed: " ++ e.msg), [], 1)
      else (.raised e, [], 1)

/-- The retry loop of lines 59-69 entered at a given attempt index. -/
def retryFrom (f : Nat → RetrieveOutcome) (attempt : Nat) :
    RetrievalResult × List Nat × Nat :=
  retryGo f attempt (2 - attempt)

/-- The response bodies the handler can produce: a body-level error, the
zero-match notice, or the filtered results. -/
inductive Response where
  | err (msg : String)
  | noMatch (company : String) (message : String)
  | okResp (company : String) (results : List ResultRecord)
deriving DecidableEq, Repr

deriving instance DecidableEq for Except

/-- A run of the handler: the response or the propagated exception, the
backoff sleeps performed, and the number of retrieval calls made. -/
structure HandlerTrace where
  result : Except PyExc Response
  sleeps : List Nat
  calls : Nat
deriving DecidableEq, Repr

/-- Embedding of the `llamaquery` handler (lines 26-114): query validation,
company resolution, the retry loop (driven by the attempt oracle `f`),
node normalization, company filtering, and response selection. -/
def llamaquery (d : RequestData) (f : Nat → RetrieveOutcome) : HandlerTrace :=
  match d.query with
  | none => ⟨.ok (.err "Missing 'query' in request body"), [], 0⟩
  | some q =>
    if q = "" then ⟨.ok (.err "Missing 'query' in request body"), [], 0⟩
    else
      match resolveCompanyE d with
      | .error e => ⟨.error e, [], 0⟩
      | .ok none => ⟨.ok (.err "Missing 'company' name in payload"), [], 0⟩
      | .ok (some cv) =>
        let variants := normalize_variants cv
        let r := retryFrom f 0
        match r.1 with
        | .raised e => ⟨.error e, r.2.1, r.2.2⟩
        | .connFailed m => ⟨.ok (.err m), r.2.1, r.2.2⟩
        | .nodes ns =>
          let results := ns.map mkRecord
          let filtered := results.filter (fun rec =>
            match_company variants rec.text rec.file_name rec.web_url)
          if filtered = [] then
            ⟨.ok (.noMatch cv ("No relevant chunks found for '" ++ cv ++ "'.")),
              r.2.1, r.2.2⟩
          else
            ⟨.ok (.okResp cv filtered), r.2.1, r.2.2⟩

/-- The results list before filtering: per-node normalization in order. -/
def buildResults (ns : List RetNode) : List ResultRecord :=
  ns.map mkRecord

/-- The filtered results for a company name. -/
def filteredResults (cv : String) (ns : List RetNode) : List ResultRecord :=
  (buildResults ns).filter (fun rec =>
    match_company (normalize_variants cv) rec.text rec.file_name rec.web_url)

/-- Specification-side matching predicate, as the spec words it: some
company variant is a case-insensitive substring of the record's text, file
name, or web url, null fields read as empty strings. -/
def variantMatches (cv : String) (r : ResultRecord) : Prop :=
  ∃ v ∈ normalize_variants cv,
    v.data <:+: (strLower r.text).data ∨
    v.data <:+: (strLower (r.file_name.getD "")).data ∨
    v.data <:+: (strLower (r.web_url.getD "")).data

/-- The company value the claim reads at `filters.filters[0].value`. -/
def loc1 (d : RequestData) : Option String :=
  ((d.filters.bind FiltersPayload.filters).bind List.head?).bind FilterItem.value

/-- The company value the claim reads at `preFilters.filters[0].value`. -/
def loc2 (d : RequestData) : Option String :=
  ((d.preFilters.bind FiltersPayload.filters).bind List.head?).bind FilterItem.value

/-- An optional string holds a usable (non-empty) company name. -/
def nonEmptyAt (o : Option String) : Prop :=
  ∃ s, o = some s ∧ s ≠ ""

/-- Claim-side reading of the file-name derivation in C8, following the
claim's words: read `file_name`, fall back to `filename` only when
`file_name` is absent, then to `document_title`, null when all are
absent. -/
def fileNameByAbsence (m : List (String × String)) : Option String :=
  match mget m "file_name" with
  | some s => some s
  | none =>
    match mget m "filename" with
    | some t => some t
    | none => mget m "document_title"

/-- Amended derivation of the record's file name: use the `file_name`
value when present and non-empty, else the `filename` value when present
and non-empty, else the `document_title` entry verbatim — present-but-empty
values trigger the same fallback as absent ones, because the source
chains the lookups with Python `or`. -/
def fileNameAmended (m : List (String × String)) : Option String :=
  match mget m "file_name" with
  | some s =>
    if s ≠ "" then some s
    else
      match mget m "filename" with
      | some t => if t ≠ "" then some t else mget m "document_title"
      | none => mget m "document_title"
  | none =>
    match mget m "filename" with
    | some t => if t ≠ "" then some t else mget m "document_title"
    | none => mget m "document_title"

theorem listInfixOf_iff (p l : List Char) : listInfixOf p l = true ↔ p <:+: l := by
  induction l with
  | nil => simp [listInfixOf, List.isEmpty_iff]
  | cons a t ih =>
    simp [listInfixOf, ih, List.infix_cons_iff, List.isPrefixOf_iff_prefix]

theorem listInfixOf_nil (l : List Char) : listInfixOf [] l = true := by
  cases l <;> simp [listInfixOf]

/-- C5: for a non-empty company name the variant set is exactly the
lowercase-trimmed form and the three encodings with spaces replaced by
`%20`, by `_`, or removed, duplicates collapsed; in particular on
"Blue Ocean" it is {"blue ocean", "blue%20ocean", "blue_ocean",
"blueocean"}. -/
theorem normalize_variants_set (value : String) (h : value ≠ "") :
    (normalize_variants value).toFinset =
      {strLower (strTrim value),
       strReplaceChar (strLower (strTrim value)) ' ' "%20",
       strReplaceChar (strLower (strTrim value)) ' ' "_",
       strReplaceChar (strLower (strTrim value)) ' ' ""} ∧
    (normalize_variants "Blue Ocean").toFinset =
      {"blue ocean", "blue%20ocean", "blue_ocean", "blueocean"} := by
  constructor
  · ext s
    simp [normalize_variants, h, List.mem_dedup]
  · decide

/-- Witness for `normalize_variants_set` at the concrete name
"Blue Ocean". -/
theorem normalize_variants_set_witness :
    (normalize_variants "Blue Ocean").toFinset =
      {strLower (strTrim "Blue Ocean"),
       strReplaceChar (strLower (strTrim "Blue Ocean")) ' ' "%20",
       strReplaceChar (strLower (strTrim "Blue Ocean")) ' ' "_",
       strReplaceChar (strLower (strTrim "Blue Ocean")) ' ' ""} ∧
    (normalize_variants "Blue Ocean").toFinset =
      {"blue ocean", "blue%20ocean", "blue_ocean", "blueocean"} :=
  normalize_variants_set "Blue Ocean" (by decide)

/-- C4: a request body without a `query` field, or with an empty `query`,
yields exactly the "Missing 'query'" error response, with no sleep and no
retrieval call, whatever the retrieval oracle would have returned. -/
theorem missing_query_response (d : RequestData) (f : Nat → RetrieveOutcome)
    (h : d.query = none ∨ d.query = some "") :
    llamaquery d f = ⟨.ok (.err "Missing 'query' in request body"), [], 0⟩ := by
  rcases h with h | h <;> simp [llamaquery, h]

/-- Witness for `missing_query_response` on a concrete body with no
`query` key. -/
theorem missing_query_response_witness :
    llamaquery ⟨none, none, none, some "Acme"⟩ (fun _ => .ok []) =
      ⟨.ok (.err "Missing 'query' in request body"), [], 0⟩ :=
  missing_query_response ⟨none, none, none, some "Acme"⟩ (fun _ => .ok [])
    (Or.inl rfl)

/-- C6: company resolution is first-match-wins between the
`filters.filters[0].value` location and the direct `company` field: when
the former holds "A" and the latter "B", the resolved name is "A". -/
theorem company_priority (d : RequestData) (fp : FiltersPayload)
    (f0 : FilterItem) (rest : List FilterItem)
    (hf : d.filters = some fp) (hl : fp.filters = some (f0 :: rest))
    (hv : f0.value = some "A") (hc : d.company = some "B") :
    resolveCompanyE d = .ok (some "A") := by
  simp [resolveCompanyE, selectedPayload, payloadStep, FiltersPayload.truthy,
    hf, hl, hv]

/-- Witness for `company_priority` on a concrete body carrying both a
filter value "A" and a company field "B". -/
theorem company_priority_witness :
    resolveCompanyE ⟨some "q", some ⟨some [⟨some "A"⟩], false⟩, none, some "B"⟩ =
      .ok (some "A") :=
  company_priority ⟨some "q", some ⟨some [⟨some "A"⟩], false⟩, none, some "B"⟩
    ⟨some [⟨some "A"⟩], false⟩ ⟨some "A"⟩ [] rfl rfl rfl rfl

theorem payloadStep_weak (o : Option FiltersPayload)
    (hnil : ∀ fp, o = some fp → fp.filters ≠ some [])
    (hval : ¬ nonEmptyAt
      (((o.bind FiltersPayload.filters).bind List.head?).bind FilterItem.value)) :
    payloadStep o = .ok none ∨ payloadStep o = .ok (some "") := by
  cases o with
  | none => exact Or.inl rfl
  | some fp =>
    cases ht : fp.truthy with
    | false => exact Or.inl (by simp [payloadStep, ht])
    | true =>
      cases hfl : fp.filters with
      | none => exact Or.inl (by simp [payloadStep, ht, hfl])
      | some l =>
        cases l with
        | nil => exact absurd hfl (hnil fp rfl)
        | cons f0 rest =>
          cases hv : f0.value with
          | none => exact Or.inl (by simp [payloadStep, ht, hfl, hv])
          | some s =>
            have hs : s = "" := by
              simp [nonEmptyAt, hfl, hv] at hval
              exact hval
            exact Or.inr (by simp [payloadStep, ht, hfl, hv, hs])

/-- C3 is refuted by the code: a body with a non-empty query, an empty
`filters.filters` list, and no other company source has no resolvable
company name, yet the handler raises `IndexError` instead of returning the
"Missing 'company'" error response. -/
theorem missing_company_counterexample :
    (llamaquery ⟨some "q", some ⟨some [], false⟩, none, none⟩
        (fun _ => .ok [])).result = .error .indexError ∧
    (llamaquery ⟨some "q", some ⟨some [], false⟩, none, none⟩
        (fun _ => .ok [])).result ≠
      .ok (.err "Missing 'company' name in payload") := by
  decide

/-- C3 (amended): for every body with a non-empty query from which no
non-empty company name is resolvable from `filters.filters[0].value`,
`preFilters.filters[0].value`, or `company` — provided any payload
carrying a `filters` key has a non-empty list there (an empty list
instead raises `IndexError`) — the handler returns the
"Missing 'company'" error and performs no retrieval call. -/
theorem missing_company_response (d : RequestData) (f : Nat → RetrieveOutcome)
    (q : String) (hq : d.query = some q) (hqne : q ≠ "")
    (h1 : ¬ nonEmptyAt (loc1 d)) (h2 : ¬ nonEmptyAt (loc2 d))
    (h3 : ¬ nonEmptyAt d.company)
    (hwf1 : ∀ fp, d.filters = some fp → fp.filters ≠ some [])
    (hwf2 : ∀ fp, d.preFilters = some fp → fp.filters ≠ some []) :
    llamaquery d f = ⟨.ok (.err "Missing 'company' name in payload"), [], 0⟩ := by
  have hcomp : d.company.getD "" = "" := by
    cases hcx : d.company with
    | none => rfl
    | some s =>
      simp [nonEmptyAt, hcx] at h3
      simp [h3]
  have hstep : payloadStep (selectedPayload d) = .ok none ∨
      payloadStep (selectedPayload d) = .ok (some "") := by
    cases hf : d.filters with
    | some fp =>
      cases ht : fp.truthy with
      | true =>
        have hsel : selectedPayload d = some fp := by simp [selectedPayload, hf, ht]
        refine payloadStep_weak _ ?_ ?_
        · intro fp' h
          rw [hsel] at h
          cases h
          exact hwf1 fp hf
        · rw [hsel]
          simpa [loc1, hf] using h1
      | false =>
        have hsel : selectedPayload d = d.preFilters := by
          simp [selectedPayload, hf, ht]
        refine payloadStep_weak _ ?_ ?_
        · intro fp' h
          rw [hsel] at h
          exact hwf2 fp' h
        · rw [hsel]
          simpa [loc2] using h2
    | none =>
      have hsel : selectedPayload d = d.preFilters := by
        simp [selectedPayload, hf]
      refine payloadStep_weak _ ?_ ?_
      · intro fp' h
        rw [hsel] at h
        exact hwf2 fp' h
      · rw [hsel]
        simpa [loc2] using h2
  have hres : resolveCompanyE d = .ok none := by
    rcases hstep with hstep | hstep <;> simp [resolveCompanyE, hstep, hcomp]
  simp [llamaquery, hq, hqne, hres]

/-- Witness for `missing_company_response` on a concrete body lacking all
three company sources. -/
theorem missing_company_response_witness :
    llamaquery ⟨some "q", none, none, none⟩ (fun _ => .ok []) =
      ⟨.ok (.err "Missing 'company' name in payload"), [], 0⟩ :=
  missing_company_response ⟨some "q", none, none, none⟩ (fun _ => .ok []) "q"
    rfl (by decide) (by simp [nonEmptyAt, loc1]) (by simp [nonEmptyAt, loc2])
    (by simp [nonEmptyAt]) (by simp) (by simp)

/-- C8 is refuted by the code as stated: the `or` chain falls back on a
present-but-empty `file_name`, so a node whose metadata holds
`file_name = ""` and `filename = "report.pdf"` yields `"report.pdf"`,
not the `""` that reading `file_name` with absence-only fallback gives. -/
theorem file_name_counterexample :
    (mkRecord ⟨none, [("file_name", ""), ("filename", "report.pdf")], none⟩).file_name
        = some "report.pdf" ∧
    fileNameByAbsence
        (RetNode.effMetadata ⟨none, [("file_name", ""), ("filename", "report.pdf")], none⟩)
        = some "" ∧
    (mkRecord ⟨none, [("file_name", ""), ("filename", "report.pdf")], none⟩).file_name
        ≠ fileNameByAbsence
            (RetNode.effMetadata ⟨none, [("file_name", ""), ("filename", "report.pdf")], none⟩) := by
  decide

/-- C8 (amended): the record's `file_name` is the metadata value of
`file_name` when present and non-empty, else that of `filename` when
present and non-empty, else the `document_title` entry verbatim (null when
absent) — the fallback fires on empty values as well as absent keys; in
particular a node whose metadata contains only `document_title` yields
exactly that value. -/
theorem file_name_derivation (n : RetNode) :
    (mkRecord n).file_name = fileNameAmended n.effMetadata ∧
    ∀ v : String, recordFileName [("document_title", v)] = some v := by
  constructor
  · show recordFileName n.effMetadata = fileNameAmended n.effMetadata
    unfold recordFileName fileNameAmended pyOrS
    cases h1 : mget n.effMetadata "file_name" with
    | some s =>
      cases h2 : mget n.effMetadata "filename" with
      | some t => by_cases hs : s = "" <;> by_cases ht : t = "" <;> simp [hs, ht]
      | none => by_cases hs : s = "" <;> simp [hs]
    | none =>
      cases h2 : mget n.effMetadata "filename" with
      | some t => by_cases ht : t = "" <;> simp [ht]
      | none => simp
  · intro v
    simp [recordFileName, mget, pyOrS]

/-- C10: a non-empty, all-whitespace company name passes validation, its
variant set collapses to exactly the empty string, the empty variant
matches every record, and the filtering step removes nothing. -/
theorem whitespace_company_matches_all (q c : String) (rs : List ResultRecord)
    (hq : q ≠ "") (hc : c ≠ "") (hw : strTrim c = "") :
    resolveCompanyE ⟨some q, none, none, some c⟩ = .ok (some c) ∧
    normalize_variants c = [""] ∧
    (∀ r ∈ rs,
      match_company (normalize_variants c) r.text r.file_name r.web_url = true) ∧
    rs.filter (fun r =>
      match_company (normalize_variants c) r.text r.file_name r.web_url) = rs := by
  have hv : normalize_variants c = [""] := by
    simp [normalize_variants, hc, hw]
    decide
  have hm : ∀ r : ResultRecord,
      match_company (normalize_variants c) r.text r.file_name r.web_url = true := by
    intro r
    rw [hv]
    simp [match_company, strContains,
      show ("" : String).data = [] from rfl, listInfixOf_nil]
  refine ⟨?_, hv, fun r _ => hm r, List.filter_eq_self.mpr fun r _ => hm r⟩
  simp [resolveCompanyE, selectedPayload, payloadStep, hc]

/-- Witness for `whitespace_company_matches_all` at the single-space
company name and one concrete record. -/
theorem whitespace_company_matches_all_witness :
    resolveCompanyE ⟨some "q", none, none, some " "⟩ = .ok (some " ") ∧
    normalize_variants " " = [""] ∧
    match_company (normalize_variants " ") "hello" none none = true ∧
    List.filter (fun r : ResultRecord =>
        match_company (normalize_variants " ") r.text r.file_name r.web_url)
      [⟨"hello", none, none⟩] = [⟨"hello", none, none⟩] := by
  obtain ⟨h1, h2, h3, h4⟩ :=
    whitespace_company_matches_all "q" " " [⟨"hello", none, none⟩]
      (by decide) (by decide) (by decide)
  exact ⟨h1, h2, h3 ⟨"hello", none, none⟩ (by simp), h4⟩

/-- C2: when all three retrieval attempts raise a qualifying transient
fault, the handler sleeps exactly twice for 2 seconds, makes exactly 3
calls, and responds with the connection-failure error carrying the third
fault's message. -/
theorem retry_exhaustion (d : RequestData) (f : Nat → RetrieveOutcome)
    (q cv : String) (e0 e1 e2 : PyExc)
    (hq : d.query = some q) (hqne : q ≠ "")
    (hres : resolveCompanyE d = .ok (some cv))
    (h0 : f 0 = .exc e0) (ht0 : isTransient e0 = true)
    (h1 : f 1 = .exc e1) (ht1 : isTransient e1 = true)
    (h2 : f 2 = .exc e2) (ht2 : isTransient e2 = true) :
    llamaquery d f =
      ⟨.ok (.err ("Llama Cloud connection failed: " ++ e2.msg)), [2, 2], 3⟩ := by
  have hr : retryFrom f 0 =
      (.connFailed ("Llama Cloud connection failed: " ++ e2.msg), [2, 2], 3) := by
    simp [retryFrom, retryGo, h0, ht0, h1, ht1, h2, ht2]
  simp [llamaquery, hq, hqne, hres, hr]

/-- Witness for `retry_exhaustion` with three distinct transient faults. -/
theorem retry_exhaustion_witness :
    llamaquery ⟨some "q", none, none, some "Acme"⟩
        (fun n => if n = 0 then .exc (.remoteProtocolError "a")
          else if n = 1 then .exc (.readTimeout "b")
          else .exc (.remoteProtocolError "c")) =
      ⟨.ok (.err "Llama Cloud connection failed: c"), [2, 2], 3⟩ :=
  retry_exhaustion ⟨some "q", none, none, some "Acme"⟩
    (fun n => if n = 0 then .exc (.remoteProtocolError "a")
      else if n = 1 then .exc (.readTimeout "b")
      else .exc (.remoteProtocolError "c"))
    "q" "Acme" (.remoteProtocolError "a") (.readTimeout "b")
    (.remoteProtocolError "c") rfl (by decide) (by decide)
    rfl rfl rfl rfl rfl rfl

/-- C7: a non-qualifying fault raised at attempt `k` (after only transient
faults) ends the loop at once: no further retry, no backoff sleep beyond
the `k` earlier ones, and the exception propagates out of the handler
instead of becoming a body-level error. -/
theorem nonqualifying_fault_propagates (d : RequestData)
    (f : Nat → RetrieveOutcome) (q cv : String) (k : Nat) (e : PyExc)
    (hq : d.query = some q) (hqne : q ≠ "")
    (hres : resolveCompanyE d = .ok (some cv))
    (hk : k < 3)
    (hprev : ∀ j, j < k → ∃ ej, f j = .exc ej ∧ isTransient ej = true)
    (hke : f k = .exc e) (hne : isTransient e = false) :
    llamaquery d f = ⟨.error e, List.replicate k 2, k + 1⟩ := by
  have hr : retryFrom f 0 = (.raised e, List.replicate k 2, k + 1) := by
    interval_cases k
    · simp [retryFrom, retryGo, hke, hne]
    · obtain ⟨e0, h0, ht0⟩ := hprev 0 (by omega)
      simp [retryFrom, retryGo, h0, ht0, hke, hne, List.replicate]
    · obtain ⟨e0, h0, ht0⟩ := hprev 0 (by omega)
      obtain ⟨e1, h1, ht1⟩ := hprev 1 (by omega)
      simp [retryFrom, retryGo, h0, ht0, h1, ht1, hke, hne, List.replicate]
  simp [llamaquery, hq, hqne, hres, hr]

/-- Witness for `nonqualifying_fault_propagates`: an authentication-like
error on the first attempt propagates with no sleep. -/
theorem nonqualifying_fault_propagates_witness :
    llamaquery ⟨some "q", none, none, some "Acme"⟩
        (fun _ => .exc (.other "AuthenticationError" "401")) =
      ⟨.error (.other "AuthenticationError" "401"), [], 1⟩ :=
  nonqualifying_fault_propagates ⟨some "q", none, none, some "Acme"⟩
    (fun _ => .exc (.other "AuthenticationError" "401")) "q" "Acme" 0
    (.other "AuthenticationError" "401") rfl (by decide) (by decide)
    (by omega) (fun j hj => absurd hj (by omega)) rfl rfl

theorem ite_empty_self (t : String) : (if t = "" then "" else t) = t := by
  by_cases h : t = "" <;> simp [h]

theorem match_company_iff (cv : String) (r : ResultRecord) :
    match_company (normalize_variants cv) r.text r.file_name r.web_url = true ↔
      variantMatches cv r := by
  simp [match_company, variantMatches, strContains, ite_empty_self,
    List.any_eq_true, listInfixOf_iff, or_assoc]

/-- C1: for a resolved company name, a normalized record survives the
filter iff some company variant is a substring of the lowercased text,
file name, or web url (null fields read as empty); with zero matches the
handler answers the no-match notice, and otherwise the matching records
under the company name. -/
theorem filtered_output_spec (d : RequestData) (f : Nat → RetrieveOutcome)
    (q cv : String) (ns : List RetNode)
    (hq : d.query = some q) (hqne : q ≠ "")
    (hres : resolveCompanyE d = .ok (some cv))
    (hf0 : f 0 = .ok ns) :
    (∀ r : ResultRecord,
      r ∈ filteredResults cv ns ↔ r ∈ buildResults ns ∧ variantMatches cv r) ∧
    (filteredResults cv ns = [] →
      llamaquery d f =
        ⟨.ok (.noMatch cv ("No relevant chunks found for '" ++ cv ++ "'.")),
          [], 1⟩) ∧
    (filteredResults cv ns ≠ [] →
      llamaquery d f = ⟨.ok (.okResp cv (filteredResults cv ns)), [], 1⟩) := by
  have hr : retryFrom f 0 = (.nodes ns, [], 1) := by
    simp [retryFrom, retryGo, hf0]
  refine ⟨?_, ?_, ?_⟩
  · intro r
    simp [filteredResults, List.mem_filter, match_company_iff]
  · intro hempty
    simp only [filteredResults, buildResults] at hempty
    simp [llamaquery, hq, hqne, hres, hr, hempty]
  · intro hne
    simp only [filteredResults, buildResults] at hne
    simp [llamaquery, hq, hqne, hres, hr, hne, filteredResults, buildResults]

/-- Witness for `filtered_output_spec`: one retrieved node mentioning
"ACME" in its text survives the "Acme" filter and is returned under the
company key. -/
theorem filtered_output_spec_witness :
    llamaquery ⟨some "q", none, none, some "Acme"⟩
        (fun _ => .ok [⟨none, [("web_url", "http:x")], some "ACME report"⟩]) =
      ⟨.ok (.okResp "Acme"
        (filteredResults "Acme" [⟨none, [("web_url", "http:x")], some "ACME report"⟩])),
        [], 1⟩ :=
  (filtered_output_spec ⟨some "q", none, none, some "Acme"⟩
      (fun _ => .ok [⟨none, [("web_url", "http:x")], some "ACME report"⟩])
      "q" "Acme" [⟨none, [("web_url", "http:x")], some "ACME report"⟩]
      rfl (by decide) (by decide) rfl).2.2 (by decide)

/-- C9: normalization maps the i-th node to the i-th record (same length,
pointwise `mkRecord`), and the filtered output is the order-preserving
subsequence of the normalized records selected by the match predicate. -/
theorem order_preservation (ns : List RetNode) (cv : String) (i : Nat) :
    (buildResults ns).length = ns.length ∧
    (buildResults ns)[i]? = (ns[i]?).map mkRecord ∧
    filteredResults cv ns = (buildResults ns).filter (fun r =>
      match_company (normalize_variants cv) r.text r.file_name r.web_url) ∧
    List.Sublist (filteredResults cv ns) (buildResults ns) := by
  refine ⟨by simp [buildResults], by simp [buildResults], rfl,
    List.filter_sublist _⟩
